import Mathlib

/-!
Verification of the layer-webhooks-services receipt-tracking engine.

The definitions below are a shallow embedding of the repository's source:
`listen.js` (inbound webhook routing and HMAC signature validation),
`receipts.js` (the receipt-tracking state machine, delay scheduling,
fire-time recipient evaluation, identity enrichment and notification
emission, in its two variants), and the configuration mapping performed by
the `receipts` module.  JavaScript objects are modelled as Lean structures,
the redis string store as a function from keys to optional snapshots, and
asynchronous callback code as explicit result values.  External libraries
(node `crypto`, the `ms` duration library, the kue queue client, the Layer
identity directory) are modelled at the granularity at which the source
calls them.
-/

namespace LW

/-- JavaScript truthiness of an optional string field: an absent field and
the empty string are falsy, every other string is truthy. -/
def truthy : Option String → Bool
  | none => false
  | some s => s ≠ ""

/-- A message sender as delivered by the platform: either a real user
(`user_id`) or a platform-service bot (`name`). -/
structure Sender where
  user_id : Option String
  name : Option String
deriving Repr, DecidableEq

/-- A message snapshot: `recipient_status` is the JSON object mapping
userId to status, modelled as an insertion-ordered association list (object
keys are unique, which theorems take as a `Nodup` hypothesis). -/
structure Message where
  id : String
  sender : Sender
  recipient_status : List (String × String)
deriving Repr, DecidableEq

/-- The parsed body of an inbound webhook POST:
`{event: {type, created_at}, message?, conversation?, config: {name}}`. -/
structure WebhookBody where
  eventType : String
  createdAt : String
  configName : String
  message : Option Message
  conversation : Option String
deriving Repr, DecidableEq

/-- A kue job created by the listener for an accepted event
(`listen.js`, the `queue.createJob(webhookName, ...)` call). -/
structure ListenerJob where
  name : String
  timestamp : String
  etype : String
  conversation : Option String
  message : Option Message
  delay : Nat
  attempts : Nat
  backoffDelay : Nat
deriving Repr, DecidableEq

/-- `req.body.message.sender.user_id` when a message is present. -/
def senderUserId : Option Message → Option String
  | none => none
  | some m => m.sender.user_id

/-- Boolean prefix test on character lists. -/
def charsPrefix : List Char → List Char → Bool
  | [], _ => true
  | _ :: _, [] => false
  | a :: as, b :: bs => a == b && charsPrefix as bs

/-- `s.indexOf(p) === 0` for strings: `s` starts with `p`. -/
def strStartsWith (s p : String) : Bool :=
  charsPrefix p.data s.data

/-- The listener's POST handler after the signature middleware
(`listen.js` lines 107-138).  Returns the HTTP status sent and the list of
jobs enqueued.  The source rejects with 400 when
`req.body.config.name != webhookName &&
webhookName.indexOf(req.body.config.name + ':') !== 0`; the positive form
of that condition guards the accept branch here.  Accepted events are
enqueued only when there is no message or the message sender has a truthy
`user_id` (bot-echo suppression); the response is 200 either way. -/
def postHandler (webhookName : String) (delay : Nat) (body : WebhookBody) :
    Nat × List ListenerJob :=
  if body.configName = webhookName
      ∨ strStartsWith webhookName (body.configName ++ ":") = true then
    if body.message.isNone = true ∨ truthy (senderUserId body.message) = true then
      (200, [{ name := webhookName, timestamp := body.createdAt,
               etype := body.eventType, conversation := body.conversation,
               message := body.message, delay := delay, attempts := 10,
               backoffDelay := 10000 }])
    else
      (200, [])
  else
    (400, [])

/-- UTF-8 encoding of one code point, as a list of byte values. -/
def utf8EncodeChar (c : Nat) : List Nat :=
  if c < 0x80 then [c]
  else if c < 0x800 then [0xC0 + c / 0x40, 0x80 + c % 0x40]
  else if c < 0x10000 then
    [0xE0 + c / 0x1000, 0x80 + (c / 0x40) % 0x40, 0x80 + c % 0x40]
  else
    [0xF0 + c / 0x40000, 0x80 + (c / 0x1000) % 0x40,
     0x80 + (c / 0x40) % 0x40, 0x80 + c % 0x40]

/-- `unescape(encodeURIComponent(payload))` from `listen.js`: the payload
string re-encoded so that each character holds one byte of the UTF-8
encoding; modelled directly as the UTF-8 byte sequence. -/
def utf8safe (payload : String) : List Nat :=
  payload.data.foldr (fun ch acc => utf8EncodeChar ch.toNat ++ acc) []

/-- The `handleValidation` middleware (`listen.js` lines 146-157), with the
HMAC-SHA1 hex digest of node `crypto` (an external library, not part of
src/) passed in as a function from key and byte sequence to hex string.
Returns whether `next()` was called and the status sent otherwise; the
source compares `hash === signature` where the header may be absent. -/
def handleValidation (hmacSha1Hex : String → List Nat → String)
    (secret : String) (payload : String) (signature : Option String) :
    Bool × Option Nat :=
  if signature = some (hmacSha1Hex secret (utf8safe payload)) then
    (true, none)
  else
    (false, some 403)

/-- The full POST route: signature middleware first, then the event
handler.  `payload` is the JSON serialization of `body` as seen by the
middleware. -/
def postRoute (hmacSha1Hex : String → List Nat → String) (secret : String)
    (webhookName : String) (delay : Nat) (signature : Option String)
    (payload : String) (body : WebhookBody) : Nat × List ListenerJob :=
  if (handleValidation hmacSha1Hex secret payload signature).1 = true then
    postHandler webhookName delay body
  else
    (403, [])

/-- An identity record returned by the Layer identity directory
(`response.body`), opaque to the core. -/
structure Identity where
  body : String
deriving Repr, DecidableEq

/-- The `hooks.receipts.identities` option: falsy (off), `true` (use the
builtin directory lookup), or a caller-supplied resolver function.  The
resolver receives the raw userId value and reports the identity data it
passes to its callback (`none` models a null/undefined callback value). -/
inductive IdentityMode where
  | off
  | builtin
  | custom (resolver : Option String → Option Identity)

/-- An argument value handed to the `ms` duration library: absent, a
number, or a string. -/
inductive MsArg where
  | undef
  | num (n : Nat)
  | str (s : String)
deriving Repr, DecidableEq

/-- What `ms(...)` produces: a millisecond count (string input that
parses), a formatted human-readable string (numeric input), or no valid
millisecond count at all (absent or unparseable input; depending on the
library version this is a thrown error, `undefined`, or a malformed
string). -/
inductive MsResult where
  | millis (n : Nat)
  | formatted (s : String)
  | invalid
deriving Repr, DecidableEq

/-- ASCII lower-casing of one character. -/
def charLower (c : Char) : Char :=
  if 65 ≤ c.toNat ∧ c.toNat ≤ 90 then Char.ofNat (c.toNat + 32) else c

/-- Decimal value of a digit string. -/
def digitsToNat : List Char → Nat → Nat
  | [], acc => acc
  | c :: cs, acc => digitsToNat cs (acc * 10 + (c.toNat - 48))

/-- Milliseconds per duration unit, per the `ms` library's parse table
(the unit is optional; a bare number string means milliseconds). -/
def unitMillis : String → Option Nat
  | "years" | "year" | "yrs" | "yr" | "y" => some 31557600000
  | "days" | "day" | "d" => some 86400000
  | "hours" | "hour" | "hrs" | "hr" | "h" => some 3600000
  | "minutes" | "minute" | "mins" | "min" | "m" => some 60000
  | "seconds" | "second" | "secs" | "sec" | "s" => some 1000
  | "milliseconds" | "millisecond" | "msecs" | "msec" | "ms" | "" => some 1
  | _ => none

/-- JavaScript `Math.round(n / u)` for naturals. -/
def jsRound (n u : Nat) : Nat := (2 * n + u) / (2 * u)

/-- The `ms` library's short formatting of a numeric argument. -/
def msShort (n : Nat) : String :=
  if n ≥ 86400000 then toString (jsRound n 86400000) ++ "d"
  else if n ≥ 3600000 then toString (jsRound n 3600000) ++ "h"
  else if n ≥ 60000 then toString (jsRound n 60000) ++ "m"
  else if n ≥ 1000 then toString (jsRound n 1000) ++ "s"
  else toString n ++ "ms"

/-- Modelled from the `ms` library (external dependency, not in src/):
parse of a duration string, case-insensitively, as an integral count
followed by optional spaces and an optional unit word.  Fractional counts,
which the library also accepts, are not needed by any configuration in the
repository and are omitted. -/
def msParse (s : String) : Option Nat :=
  let t := s.data.map charLower
  let ds := t.takeWhile Char.isDigit
  let rest : List Char := (t.drop ds.length).dropWhile (· = ' ')
  match ds with
  | [] => none
  | _ :: _ =>
    match unitMillis (String.mk rest) with
    | some u => some (digitsToNat ds 0 * u)
    | none => none

/-- Modelled from the `ms` library (external dependency, not in src/): a
string argument is parsed into a millisecond count, a numeric argument is
formatted into a human-readable string, and an absent argument yields no
valid millisecond count. -/
def msFn : MsArg → MsResult
  | MsArg.str s =>
    match msParse s with
    | some n => MsResult.millis n
    | none => MsResult.invalid
  | MsArg.num n => MsResult.formatted (msShort n)
  | MsArg.undef => MsResult.invalid

/-- A hook definition as the user passes it to the `receipts` module:
`delay` is the top-level `hook.delay` property (absent in the documented
configuration) and `receiptsDelay` is `hook.receipts.delay`, where the
module's own documentation and usage example place the delay. -/
structure InputHook where
  name : String
  path : String
  events : List String
  delay : MsArg
  receiptsDelay : MsArg
  reportForStatus : List String
  identities : IdentityMode

/-- The per-hook configuration after the `receipts` module's
`options.hooks.map` (receipts.js lines 227-239). -/
structure ReceiptsHook where
  name : String
  originalName : String
  path : String
  events : List String
  delayMs : MsResult
  reportForStatus : List String
  identities : IdentityMode

/-- The configuration mapping of receipts.js lines 227-239: the hook is
renamed to `name + ':receipts'`, the original name is retained, and the
delay is normalized with `ms`.  The source passes `hook.delay` (the
top-level property) to `ms`, not `hook.receipts.delay`. -/
def mapHook (h : InputHook) : ReceiptsHook :=
  { name := h.name ++ ":receipts"
    originalName := h.name
    path := h.path
    events := h.events
    delayMs := msFn h.delay
    reportForStatus := h.reportForStatus
    identities := h.identities }

/-- The redis key used by the second (identity-enriched) variant of
receipts.js: `REDIS_PREFIX + hook.name + '-' + message.id` with
`REDIS_PREFIX = 'layer-webhooks-'`. -/
def redisKey (hookName messageId : String) : String :=
  "layer-webhooks-" ++ hookName ++ "-" ++ messageId

/-- The redis key used by the first variant of receipts.js (lines 83-135
of that variant): `REDIS_PREFIX + message.id`, with no hook-name
component. -/
def redisKeyV1 (messageId : String) : String :=
  "layer-webhooks-" ++ messageId

/-- A redis operation issued by the event processors.  `set` carries the
stored snapshot (the source stores `JSON.stringify(message)`; the
serialization is modelled as the snapshot itself, the round trip through
`JSON.parse` being lossless) and the expiry argument, which the source
never passes (`redis.set(key, value)` with no `EX`). -/
inductive StoreOp where
  | set (key : String) (value : Message) (expiry : Option Nat)
  | del (key : String)
deriving Repr, DecidableEq

/-- The delayed re-check job armed on `message.sent`
(`queue.createJob(hook.name + ' delayed-job', ...)`). -/
structure DelayedJob where
  name : String
  title : String
  messageId : String
  delay : MsResult
  attempts : Nat
  backoffDelay : Nat
deriving Repr, DecidableEq

/-- The observable outcome of one run of the receipts event processor:
store operations issued, delayed jobs armed, how many times `done` was
invoked, whether `done` was ever passed an error (it never is in this
processor, so the job always completes and is not retried), and whether a
JavaScript exception escaped the handler after the `finally` block ran. -/
structure ProcResult where
  ops : List StoreOp
  delayedJobs : List DelayedJob
  doneCalls : Nat
  ackedWithError : Bool
  raised : Bool
deriving Repr, DecidableEq

/-- The payload of a listener job as consumed by the receipts event
processor (`job.data`): the event type and the optional message. -/
structure ReceiptsEvent where
  etype : String
  message : Option Message
deriving Repr, DecidableEq

/-- The receipts event processor, second variant (receipts.js lines
249-281).  `var message = event.message; if (message.sender.name) return
done();` — when the event has no message the property access throws, the
`finally` block still calls `done()`, and the exception propagates; for a
bot sender the explicit `return done()` is followed by the `finally`
block's `done()`, so `done` runs twice.  The `switch` on `event.type`
stores, re-stores or deletes the snapshot and arms the delayed job only on
`message.sent`. -/
def eventProcessor (hook : ReceiptsHook) (ev : ReceiptsEvent) : ProcResult :=
  match ev.message with
  | none =>
    { ops := [], delayedJobs := [], doneCalls := 1,
      ackedWithError := false, raised := true }
  | some m =>
    if truthy m.sender.name = true then
      { ops := [], delayedJobs := [], doneCalls := 2,
        ackedWithError := false, raised := false }
    else if ev.etype = "message.sent" then
      { ops := [StoreOp.set (redisKey hook.name m.id) m none],
        delayedJobs := [{ name := hook.name ++ " delayed-job",
                          title := "Process undelivered message",
                          messageId := m.id, delay := hook.delayMs,
                          attempts := 10, backoffDelay := 1000 }],
        doneCalls := 1, ackedWithError := false, raised := false }
    else if ev.etype = "message.delivered" ∨ ev.etype = "message.read" then
      { ops := [StoreOp.set (redisKey hook.name m.id) m none],
        delayedJobs := [], doneCalls := 1,
        ackedWithError := false, raised := false }
    else if ev.etype = "message.deleted" then
      { ops := [StoreOp.del (redisKey hook.name m.id)],
        delayedJobs := [], doneCalls := 1,
        ackedWithError := false, raised := false }
    else
      { ops := [], delayedJobs := [], doneCalls := 1,
        ackedWithError := false, raised := false }

/-- The receipts event processor, first variant (receipts.js lines 83-115
of that variant): identical control flow, but the redis keys carry only
the message id, with no hook-name component. -/
def eventProcessorV1 (hookName : String) (delayMs : MsResult)
    (ev : ReceiptsEvent) : ProcResult :=
  match ev.message with
  | none =>
    { ops := [], delayedJobs := [], doneCalls := 1,
      ackedWithError := false, raised := true }
  | some m =>
    if truthy m.sender.name = true then
      { ops := [], delayedJobs := [], doneCalls := 2,
        ackedWithError := false, raised := false }
    else if ev.etype = "message.sent" then
      { ops := [StoreOp.set (redisKeyV1 m.id) m none],
        delayedJobs := [{ name := hookName ++ " delayed-job",
                          title := "Process undelivered message",
                          messageId := m.id, delay := delayMs,
                          attempts := 10, backoffDelay := 1000 }],
        doneCalls := 1, ackedWithError := false, raised := false }
    else if ev.etype = "message.delivered" ∨ ev.etype = "message.read" then
      { ops := [StoreOp.set (redisKeyV1 m.id) m none],
        delayedJobs := [], doneCalls := 1,
        ackedWithError := false, raised := false }
    else if ev.etype = "message.deleted" then
      { ops := [StoreOp.del (redisKeyV1 m.id)],
        delayedJobs := [], doneCalls := 1,
        ackedWithError := false, raised := false }
    else
      { ops := [], delayedJobs := [], doneCalls := 1,
        ackedWithError := false, raised := false }

/-- The redis string store, restricted to the snapshots this module
stores: a mapping from key to optional stored value. -/
abbrev Store := String → Option Message

/-- Apply one store operation. -/
def applyOp (s : Store) : StoreOp → Store
  | StoreOp.set k v _ => fun x => if x = k then some v else s x
  | StoreOp.del k => fun x => if x = k then none else s x

/-- Apply a list of store operations in order. -/
def applyOps (s : Store) (ops : List StoreOp) : Store :=
  ops.foldl applyOp s

/-- The empty store. -/
def emptyStore : Store := fun _ => none

/-- `redis.del k` applied to a store. -/
def storeDel (s : Store) (k : String) : Store :=
  fun x => if x = k then none else s x

/-- `message.recipient_status[userId]`: association-list lookup. -/
def statusOf (m : Message) (userId : String) : Option String :=
  m.recipient_status.lookup userId

/-- The filter predicate of `processMessage`:
`hook.receipts.reportForStatus.indexOf(message.recipient_status[userId])
!== -1` (an absent entry gives `undefined`, whose index is -1). -/
def statusMatches (hookFilter : List String) (m : Message)
    (userId : String) : Bool :=
  match statusOf m userId with
  | some st => hookFilter.contains st
  | none => false

/-- The fire-time recipient set:
`Object.keys(message.recipient_status).filter(...)` in insertion order. -/
def recipientsOf (hookFilter : List String) (m : Message) : List String :=
  (m.recipient_status.map Prod.fst).filter (statusMatches hookFilter m)

/-- `getUserFromIdentities` (receipts.js lines 302-307): the directory
lookup collaborator `layerClient.identities.get`, with an error captured
as a null identity. -/
def getUserFromIdentities (directory : String → Except String Identity)
    (userId : String) : Option Identity :=
  match directory userId with
  | Except.ok r => some r
  | Except.error _ => none

/-- Lift a lookup on userIds to the raw values in the identities list (a
missing sender id looks up nothing and reports null). -/
def liftGet (g : String → Option Identity) : Option String → Option Identity
  | some u => g u
  | none => none

/-- The fan-out/fan-in join of `processMessage`: every id in the list is
resolved, each outcome (identity or captured null) is recorded under its
id, and the result is complete only when every id has reported. -/
def resolveAll (g : Option String → Option Identity)
    (ids : List (Option String)) : List (Option String × Option Identity) :=
  ids.map (fun u => (u, g u))

/-- The notification job published by `createJob` (receipts.js lines
340-349). -/
structure NotificationJob where
  name : String
  message : Message
  recipients : List String
  identities : List (Option String × Option Identity)
  attempts : Nat
  backoffDelay : Nat
deriving Repr, DecidableEq

/-- `createJob(message, recipients, identities)`: publishes one job keyed
by the original (non-receipts-suffixed) hook name with 10 attempts and
1-second exponential backoff. -/
def createJob (hook : ReceiptsHook) (m : Message) (recipients : List String)
    (identities : List (Option String × Option Identity)) : NotificationJob :=
  { name := hook.originalName, message := m, recipients := recipients,
    identities := identities, attempts := 10, backoffDelay := 1000 }

/-- `processMessage` (receipts.js lines 313-338): compute the watched
recipients (the source binds them once as `var recipients`, written out
here); if none, emit nothing; otherwise resolve
`[message.sender.user_id].concat(recipients)` per the identity mode and
publish exactly one notification job. -/
def processMessage (hook : ReceiptsHook)
    (directory : String → Except String Identity) (m : Message) :
    List NotificationJob :=
  if recipientsOf hook.reportForStatus m = [] then []
  else
    match hook.identities with
    | IdentityMode.off =>
      [createJob hook m (recipientsOf hook.reportForStatus m) []]
    | IdentityMode.builtin =>
      [createJob hook m (recipientsOf hook.reportForStatus m)
        (resolveAll (liftGet (getUserFromIdentities directory))
          (m.sender.user_id :: (recipientsOf hook.reportForStatus m).map some))]
    | IdentityMode.custom f =>
      [createJob hook m (recipientsOf hook.reportForStatus m)
        (resolveAll f
          (m.sender.user_id :: (recipientsOf hook.reportForStatus m).map some))]

/-- The outcome of one run of the delayed-job processor: the store after
the run, the notification jobs published, and the `done` invocations. -/
structure FireResult where
  store : Store
  jobs : List NotificationJob
  doneCalls : Nat

/-- The delayed-job processor (receipts.js lines 287-300): read the
snapshot; if present, evaluate it and delete the key; if absent, exit
silently.  `done` is called exactly once either way. -/
def delayedJobProcessor (hook : ReceiptsHook)
    (directory : String → Except String Identity) (store : Store)
    (messageId : String) : FireResult :=
  match store (redisKey hook.name messageId) with
  | some m =>
    { store := storeDel store (redisKey hook.name messageId),
      jobs := processMessage hook directory m, doneCalls := 1 }
  | none =>
    { store := store, jobs := [], doneCalls := 1 }

/-! Concrete instances used by the witnesses and counterexamples. -/

/-- A hook configured exactly as the receipts module's usage example. -/
def docExampleHook : InputHook :=
  { name := "Message Read Monitor", path := "/message-read-monitor",
    events := ["message.sent", "message.delivered", "message.read", "message.deleted"],
    delay := MsArg.undef, receiptsDelay := MsArg.str "10 minutes",
    reportForStatus := ["sent"], identities := IdentityMode.off }

/-- The snapshot used by the C3 evaluation. -/
def c3Msg : Message :=
  { id := "m3", sender := { user_id := some "u0", name := none },
    recipient_status := [("a", "sent")] }

def c1Hook : InputHook :=
  { name := "Read Monitor", path := "/p", events := ["message.sent"],
    delay := MsArg.num 600000, receiptsDelay := MsArg.str "10 minutes",
    reportForStatus := ["sent"], identities := IdentityMode.off }

def c1Msg : Message :=
  { id := "m1", sender := { user_id := some "u0", name := none },
    recipient_status := [("a", "sent"), ("b", "read")] }

def c1Dir : String → Except String Identity := fun _ => Except.error "nope"

/-- Store obtained by processing a `message.sent` event for `c1Msg`. -/
def c1Store : Store :=
  applyOps emptyStore
    (eventProcessor (mapHook c1Hook)
      { etype := "message.sent", message := some c1Msg }).ops

/-- A later snapshot of the same message in which the only recipient has
advanced to `read`. -/
def c1MsgRead : Message :=
  { id := "m1", sender := { user_id := some "u0", name := none },
    recipient_status := [("a", "read")] }

/-- Store obtained by processing `message.sent` and then `message.read`
for the same message: the snapshot is present at fire time but every
recipient has progressed past the watched statuses. -/
def c1StoreRead : Store :=
  applyOps emptyStore
    ((eventProcessor (mapHook c1Hook)
        { etype := "message.sent", message := some c1Msg }).ops
      ++ (eventProcessor (mapHook c1Hook)
          { etype := "message.read", message := some c1MsgRead }).ops)

def c4Msg : Message :=
  { id := "m4", sender := { user_id := some "s", name := none },
    recipient_status := [("A", "sent"), ("B", "delivered"), ("C", "read")] }

/-- A stand-in digest function for the C5 witness: the length of the byte
sequence, rendered in decimal. -/
def lenHex : String → List Nat → String := fun _ bs => toString bs.length

def c6Msg : Message :=
  { id := "m6", sender := { user_id := none, name := some "bot-service" },
    recipient_status := [("a", "sent")] }

def c6Body : WebhookBody :=
  { eventType := "message.sent", createdAt := "t", configName := "H",
    message := some c6Msg, conversation := none }

def c6Hook : ReceiptsHook :=
  { name := "H:receipts", originalName := "H", path := "/p", events := [],
    delayMs := MsResult.millis 600000, reportForStatus := ["sent"],
    identities := IdentityMode.off }

def c7Hook : ReceiptsHook :=
  { name := "R:receipts", originalName := "R", path := "/p", events := [],
    delayMs := MsResult.millis 1000, reportForStatus := ["sent"],
    identities := IdentityMode.off }

def c7Msg : Message :=
  { id := "m7", sender := { user_id := some "u", name := none },
    recipient_status := [("a", "sent")] }

def c8Hook : ReceiptsHook :=
  { name := "N:receipts", originalName := "N", path := "/p", events := [],
    delayMs := MsResult.millis 1000, reportForStatus := ["sent", "delivered"],
    identities := IdentityMode.builtin }

def c8Msg : Message :=
  { id := "m8", sender := { user_id := some "s", name := none },
    recipient_status := [("A", "sent"), ("B", "delivered")] }

/-- A directory in which resolving `B` fails while `s` and `A` succeed. -/
def c8Dir : String → Except String Identity := fun u =>
  if u = "B" then Except.error "lookup failed" else Except.ok { body := u ++ "-record" }

def c9Hook : ReceiptsHook :=
  { name := "K:receipts", originalName := "K", path := "/p", events := [],
    delayMs := MsResult.millis 1000, reportForStatus := ["sent"],
    identities := IdentityMode.off }

def c9Msg : Message :=
  { id := "m9", sender := { user_id := some "u", name := none },
    recipient_status := [("a", "sent")] }

def c9Ev : ReceiptsEvent := { etype := "message.sent", message := some c9Msg }

def c9Dir : String → Except String Identity := fun _ => Except.error "nope"

def c9Store : Store := applyOps emptyStore (eventProcessor c9Hook c9Ev).ops

def c10Hook : ReceiptsHook :=
  { name := "T:receipts", originalName := "T", path := "/p", events := [],
    delayMs := MsResult.millis 1000, reportForStatus := ["sent"],
    identities := IdentityMode.off }

def c10Bot : Message :=
  { id := "m10", sender := { user_id := none, name := some "platform-bot" },
    recipient_status := [("a", "sent")] }

/-! Helper lemmas about association-list lookup. -/

theorem lookup_eq_some_mem {l : List (String × String)} {u st : String}
    (h : l.lookup u = some st) : (u, st) ∈ l := by
  induction l with
  | nil => simp [List.lookup] at h
  | cons p t ih =>
    rw [List.lookup] at h
    by_cases hu : u = p.1
    · subst hu
      simp at h
      subst h
      exact List.mem_cons_self _ _
    · have hbe : (u == p.1) = false := by simp [hu]
      rw [hbe] at h
      exact List.mem_cons_of_mem _ (ih h)

theorem mem_lookup_eq_some {l : List (String × String)} {u st : String}
    (hnd : (l.map Prod.fst).Nodup) (h : (u, st) ∈ l) :
    l.lookup u = some st := by
  induction l with
  | nil => simp at h
  | cons p t ih =>
    rw [List.map_cons, List.nodup_cons] at hnd
    rcases List.mem_cons.mp h with h1 | h1
    · subst h1
      simp [List.lookup]
    · have hu : u ≠ p.1 := by
        intro he
        exact hnd.1 (List.mem_map.mpr ⟨(u, st), h1, he⟩)
      have hbe : (u == p.1) = false := by simp [hu]
      rw [List.lookup, hbe]
      exact ih hnd.2 h1

theorem statusMatches_iff (hookFilter : List String) (m : Message)
    (u : String) :
    statusMatches hookFilter m u = true
      ↔ ∃ st, statusOf m u = some st ∧ st ∈ hookFilter := by
  unfold statusMatches
  cases statusOf m u with
  | none => simp
  | some st => simp

/-- C2, counterexample: with listening hook name `"a"`, an inbound event
whose embedded target-webhook identity is `"a:b"` — a namespaced variant
`hookConfig.name ++ ":" ++ suffix` of the hook name, which the claim says
is accepted — is answered with HTTP 400 and nothing is enqueued. -/
theorem C2_foreign_hook_counterexample :
    postHandler "a" 0
      { eventType := "message.sent", createdAt := "t", configName := "a:b",
        message := none, conversation := none } = (400, [])
    ∧ "a:b" = "a" ++ ":" ++ "b" := by decide

/-- C2, amended: an inbound POST is routed onward exactly when the event's
embedded target-webhook identity equals the listening hook's name, or the
listening hook's name is a namespaced variant of the event's identity
(hook name = identity ++ ":" ++ suffix); any other identity is answered
with HTTP 400 and no job is enqueued; matches are answered 200. -/
theorem C2_routing_amended (webhookName : String) (delay : Nat)
    (body : WebhookBody) :
    ((postHandler webhookName delay body).1 = 400
        ∧ (postHandler webhookName delay body).2 = []
      ↔ ¬ (body.configName = webhookName
            ∨ strStartsWith webhookName (body.configName ++ ":") = true))
    ∧ ((postHandler webhookName delay body).1 = 200
      ↔ (body.configName = webhookName
          ∨ strStartsWith webhookName (body.configName ++ ":") = true)) := by
  unfold postHandler
  by_cases h : body.configName = webhookName
      ∨ strStartsWith webhookName (body.configName ++ ":") = true
  · rw [if_pos h]
    by_cases h2 : body.message.isNone = true
        ∨ truthy (senderUserId body.message) = true
    · rw [if_pos h2]; simp [h]
    · rw [if_neg h2]; simp [h]
  · rw [if_neg h]; simp [h]

/-- C3: the receipts configuration mapping reads `ms(hook.delay)` although
the module's own documentation and usage example put the delay at
`hook.receipts.delay`; for a hook configured exactly as documented the
normalized delay is not a millisecond count (the documented
`receipts.delay` value would have normalized to 600000 ms), the delayed
check armed on `message.sent` therefore carries no valid millisecond
delay, and a numeric argument to `ms` yields a formatted string rather
than a millisecond count. -/
theorem C3_delay_misconfigured :
    (mapHook docExampleHook).delayMs = MsResult.invalid
    ∧ msFn docExampleHook.receiptsDelay = MsResult.millis 600000
    ∧ (eventProcessor (mapHook docExampleHook)
        { etype := "message.sent", message := some c3Msg }).delayedJobs.map
          DelayedJob.delay = [MsResult.invalid]
    ∧ msFn (MsArg.num 600000) = MsResult.formatted "10m" := by decide

/-- C4: when the snapshot's recipient-status keys are distinct (they are
the keys of one JSON object), the fire-time recipient list contains
exactly the userIds whose stored status is in the watched-status filter,
is a sublist of the keys in their stored insertion order, has no
duplicates, and if it is empty the evaluator emits no notification. -/
theorem C4_filter_semantics (hookFilter : List String) (m : Message)
    (hnd : (m.recipient_status.map Prod.fst).Nodup) :
    (∀ u, u ∈ recipientsOf hookFilter m
        ↔ ∃ st, (u, st) ∈ m.recipient_status ∧ st ∈ hookFilter)
    ∧ List.Sublist (recipientsOf hookFilter m) (m.recipient_status.map Prod.fst)
    ∧ (recipientsOf hookFilter m).Nodup
    ∧ (recipientsOf hookFilter m = [] →
        ∀ (hook : ReceiptsHook) (directory : String → Except String Identity),
          hook.reportForStatus = hookFilter →
          processMessage hook directory m = []) := by
  refine ⟨?_, List.filter_sublist _, hnd.filter _, ?_⟩
  · intro u
    constructor
    · intro hu
      rw [recipientsOf, List.mem_filter] at hu
      obtain ⟨hst, hmem, hf⟩ := (statusMatches_iff hookFilter m u).mp hu.2
      exact ⟨hst, lookup_eq_some_mem hmem, hf⟩
    · rintro ⟨st, hmem, hf⟩
      rw [recipientsOf, List.mem_filter]
      refine ⟨List.mem_map.mpr ⟨(u, st), hmem, rfl⟩, ?_⟩
      exact (statusMatches_iff hookFilter m u).mpr
        ⟨st, mem_lookup_eq_some hnd hmem, hf⟩
  · intro hempty hook directory hf
    simp [processMessage, hf, hempty]

/-- C4, witness: the spec's worked example — statuses
`{A: sent, B: delivered, C: read}` with watched statuses
`{sent, delivered}` — gives exactly `[A, B]` in insertion order, with the
membership characterization and duplicate-freedom instantiated from the
theorem. -/
theorem C4_filter_semantics_witness :
    ("A" ∈ recipientsOf ["sent", "delivered"] c4Msg
      ↔ ∃ st, ("A", st) ∈ c4Msg.recipient_status ∧ st ∈ ["sent", "delivered"])
    ∧ (recipientsOf ["sent", "delivered"] c4Msg).Nodup
    ∧ recipientsOf ["sent", "delivered"] c4Msg = ["A", "B"] := by
  have h := C4_filter_semantics ["sent", "delivered"] c4Msg (by decide)
  exact ⟨h.1 "A", h.2.2.1, by decide⟩

/-- C1, counterexample: a message whose `message.sent` event was
processed and whose snapshot is still present at fire time (it was
overwritten by a `message.read` event in which every recipient progressed
past the watched statuses) produces zero notification jobs at fire time,
not exactly one. -/
theorem C1_counterexample :
    c1StoreRead (redisKey (mapHook c1Hook).name "m1") = some c1MsgRead
    ∧ (delayedJobProcessor (mapHook c1Hook) c1Dir c1StoreRead "m1").jobs
        = [] := by
  constructor
  · decide
  · decide

/-- C1, amended: for a snapshot present at fire time whose
watched-status recipient set is nonempty, the fire-time evaluation emits
exactly one notification job, published under the original
(non-':receipts'-suffixed) hook name with payload
`{message, recipients, identities}`; the fire deletes the snapshot, so a
second delivery of the same fire task finds no snapshot and emits no
further notification. -/
theorem C1_at_most_one_notification (h : InputHook)
    (directory : String → Except String Identity) (store : Store)
    (m : Message)
    (hsnap : store (redisKey (mapHook h).name m.id) = some m)
    (hrec : recipientsOf (mapHook h).reportForStatus m ≠ []) :
    (mapHook h).name = h.name ++ ":receipts"
    ∧ (∃ idm, (delayedJobProcessor (mapHook h) directory store m.id).jobs
        = [{ name := h.name, message := m,
             recipients := recipientsOf (mapHook h).reportForStatus m,
             identities := idm, attempts := 10, backoffDelay := 1000 }])
    ∧ (delayedJobProcessor (mapHook h) directory store m.id).store
        (redisKey (mapHook h).name m.id) = none
    ∧ (delayedJobProcessor (mapHook h) directory
        (delayedJobProcessor (mapHook h) directory store m.id).store
        m.id).jobs = [] := by
  have hrun : delayedJobProcessor (mapHook h) directory store m.id
      = { store := storeDel store (redisKey (mapHook h).name m.id),
          jobs := processMessage (mapHook h) directory m, doneCalls := 1 } := by
    unfold delayedJobProcessor
    rw [hsnap]
  have hdel : storeDel store (redisKey (mapHook h).name m.id)
      (redisKey (mapHook h).name m.id) = none := by
    unfold storeDel
    rw [if_pos rfl]
  refine ⟨rfl, ?_, ?_, ?_⟩
  · rw [hrun]
    show ∃ idm, processMessage (mapHook h) directory m
        = [{ name := h.name, message := m,
             recipients := recipientsOf (mapHook h).reportForStatus m,
             identities := idm, attempts := 10, backoffDelay := 1000 }]
    unfold processMessage
    rw [if_neg hrec]
    cases hid : (mapHook h).identities with
    | off => exact ⟨[], rfl⟩
    | builtin => exact ⟨_, rfl⟩
    | custom f => exact ⟨_, rfl⟩
  · rw [hrun]
    exact hdel
  · rw [hrun]
    show (delayedJobProcessor (mapHook h) directory
        (storeDel store (redisKey (mapHook h).name m.id)) m.id).jobs = []
    unfold delayedJobProcessor
    rw [hdel]

/-- C1, witness: a concrete hook and snapshot with one watched recipient:
the first fire emits exactly one job under the original hook name and
deletes the snapshot; the second fire emits nothing. -/
theorem C1_at_most_one_notification_witness :
    (mapHook c1Hook).name = "Read Monitor" ++ ":receipts"
    ∧ (∃ idm, (delayedJobProcessor (mapHook c1Hook) c1Dir c1Store "m1").jobs
        = [{ name := "Read Monitor", message := c1Msg,
             recipients := ["a"], identities := idm,
             attempts := 10, backoffDelay := 1000 }])
    ∧ (delayedJobProcessor (mapHook c1Hook) c1Dir c1Store "m1").store
        (redisKey (mapHook c1Hook).name "m1") = none
    ∧ (delayedJobProcessor (mapHook c1Hook) c1Dir
        (delayedJobProcessor (mapHook c1Hook) c1Dir c1Store "m1").store
        "m1").jobs = [] :=
  C1_at_most_one_notification c1Hook c1Dir c1Store c1Msg (by decide) (by decide)

/-- C5: validation calls `next()` exactly when the provided signature
header equals the hex HMAC-SHA1 digest (the node crypto digest function
is passed in as `hmacSha1Hex`) of the UTF-8-normalized payload keyed by
the secret; on mismatch the route answers HTTP 403 and no job is
enqueued; and whenever a payload mutation changes the digest — as a
single-byte mutation of the payload does, absent a digest collision — a
successful validation flips to failure. -/
theorem C5_signature_validation (hmacSha1Hex : String → List Nat → String)
    (secret payload : String) (signature : Option String) :
    ((handleValidation hmacSha1Hex secret payload signature).1 = true
      ↔ signature = some (hmacSha1Hex secret (utf8safe payload)))
    ∧ ((handleValidation hmacSha1Hex secret payload signature).1 = false →
        ∀ (name : String) (delay : Nat) (body : WebhookBody),
          postRoute hmacSha1Hex secret name delay signature payload body
            = (403, []))
    ∧ (∀ payload2 : String,
        hmacSha1Hex secret (utf8safe payload)
            ≠ hmacSha1Hex secret (utf8safe payload2) →
        (handleValidation hmacSha1Hex secret payload signature).1 = true →
        (handleValidation hmacSha1Hex secret payload2 signature).1 = false) := by
  refine ⟨?_, ?_, ?_⟩
  · unfold handleValidation
    by_cases hs : signature = some (hmacSha1Hex secret (utf8safe payload))
    · rw [if_pos hs]
      simpa using hs
    · rw [if_neg hs]
      simpa using hs
  · intro hfail name delay body
    simp [postRoute, hfail]
  · intro payload2 hne hsucc
    have h1 : signature = some (hmacSha1Hex secret (utf8safe payload)) := by
      by_contra hno
      unfold handleValidation at hsucc
      rw [if_neg hno] at hsucc
      simp at hsucc
    have h2 : signature ≠ some (hmacSha1Hex secret (utf8safe payload2)) := by
      rw [h1]
      simp only [ne_eq, Option.some.injEq]
      exact hne
    unfold handleValidation
    rw [if_neg h2]

/-- C5, witness: with a concrete digest function, the matching signature
header validates the payload `"a"`, and the flip clause of the theorem
makes validation of the one-byte-different payload `"ab"` fail under the
same header. -/
theorem C5_signature_validation_witness :
    (handleValidation lenHex "s" "a" (some "1")).1 = true
    ∧ (handleValidation lenHex "s" "ab" (some "1")).1 = false :=
  ⟨by decide,
   (C5_signature_validation lenHex "s" "a" (some "1")).2.2 "ab"
     (by decide) (by decide)⟩

/-- C6: an event carrying a message whose sender has a service `name` and
no truthy `user_id` is answered 200 by the listener with no job enqueued,
and the receipts event processor returns early on such a message: no
store operation, no delayed job (hence no notification), `done` called
(twice, by the early return and the finally block). -/
theorem C6_bot_echo (webhookName : String) (delay : Nat)
    (body : WebhookBody) (m : Message)
    (hmsg : body.message = some m)
    (hname : truthy m.sender.name = true)
    (hid : truthy m.sender.user_id = false)
    (hroute : body.configName = webhookName) :
    postHandler webhookName delay body = (200, [])
    ∧ ∀ (hook : ReceiptsHook) (etype : String),
        eventProcessor hook { etype := etype, message := some m }
          = { ops := [], delayedJobs := [], doneCalls := 2,
              ackedWithError := false, raised := false } := by
  constructor
  · have h2 : ¬ (body.message.isNone = true
        ∨ truthy (senderUserId body.message) = true) := by
      rw [hmsg]
      simp [senderUserId, hid]
    unfold postHandler
    rw [if_pos (Or.inl hroute), if_neg h2]
  · intro hook etype
    simp [eventProcessor, hname]

/-- C6, witness: the spec's bot-echo example `sender = {name:
'bot-service'}` at a concrete listener and a concrete receipts hook. -/
theorem C6_bot_echo_witness :
    postHandler "H" 0 c6Body = (200, [])
    ∧ eventProcessor c6Hook { etype := "message.sent", message := some c6Msg }
      = { ops := [], delayedJobs := [], doneCalls := 2,
          ackedWithError := false, raised := false } := by
  have h := C6_bot_echo "H" 0 c6Body c6Msg rfl (by decide) (by decide) rfl
  exact ⟨h.1, h.2 c6Hook "message.sent"⟩

/-- C7: in the receipts event processor (for a non-bot sender), a delayed
check is armed only by `message.sent`, and exactly one per such event;
`message.delivered` and `message.read` overwrite the stored snapshot
without arming another check; `message.deleted` issues an immediate
delete, after which the key reads as absent. -/
theorem C7_state_machine (hook : ReceiptsHook) (m : Message)
    (etype : String) (hbot : truthy m.sender.name = false) :
    ((eventProcessor hook { etype := etype, message := some m }).delayedJobs
        ≠ [] → etype = "message.sent")
    ∧ (etype = "message.sent" →
        eventProcessor hook { etype := etype, message := some m }
          = { ops := [StoreOp.set (redisKey hook.name m.id) m none],
              delayedJobs := [{ name := hook.name ++ " delayed-job",
                                title := "Process undelivered message",
                                messageId := m.id, delay := hook.delayMs,
                                attempts := 10, backoffDelay := 1000 }],
              doneCalls := 1, ackedWithError := false, raised := false })
    ∧ (etype = "message.delivered" ∨ etype = "message.read" →
        eventProcessor hook { etype := etype, message := some m }
          = { ops := [StoreOp.set (redisKey hook.name m.id) m none],
              delayedJobs := [], doneCalls := 1,
              ackedWithError := false, raised := false })
    ∧ (etype = "message.deleted" →
        eventProcessor hook { etype := etype, message := some m }
          = { ops := [StoreOp.del (redisKey hook.name m.id)],
              delayedJobs := [], doneCalls := 1,
              ackedWithError := false, raised := false }
        ∧ ∀ s : Store,
            applyOps s
              (eventProcessor hook { etype := etype, message := some m }).ops
              (redisKey hook.name m.id) = none) := by
  have hb : ¬ (truthy m.sender.name = true) := by simp [hbot]
  refine ⟨?_, ?_, ?_, ?_⟩
  · intro hne
    by_cases h1 : etype = "message.sent"
    · exact h1
    · exfalso
      apply hne
      simp only [eventProcessor]
      rw [if_neg hb, if_neg h1]
      by_cases h2 : etype = "message.delivered" ∨ etype = "message.read"
      · rw [if_pos h2]
      · rw [if_neg h2]
        by_cases h3 : etype = "message.deleted"
        · rw [if_pos h3]
        · rw [if_neg h3]
  · intro h1
    subst h1
    simp only [eventProcessor]
    rw [if_neg hb]
    simp
  · intro h2
    have hne1 : ¬ (etype = "message.sent") := by
      rcases h2 with h | h <;> subst h <;> decide
    have heq : eventProcessor hook { etype := etype, message := some m }
        = { ops := [StoreOp.set (redisKey hook.name m.id) m none],
            delayedJobs := [], doneCalls := 1,
            ackedWithError := false, raised := false } := by
      simp only [eventProcessor]
      rw [if_neg hb, if_neg hne1, if_pos h2]
    exact heq
  · intro h3
    subst h3
    have heq : eventProcessor hook { etype := "message.deleted", message := some m }
        = { ops := [StoreOp.del (redisKey hook.name m.id)],
            delayedJobs := [], doneCalls := 1,
            ackedWithError := false, raised := false } := by
      simp only [eventProcessor]
      rw [if_neg hb, if_neg (by decide), if_neg (by decide)]
      simp
    refine ⟨heq, ?_⟩
    intro s
    rw [heq]
    simp [applyOps, applyOp]

/-- C7, witness: a concrete non-bot message: `message.sent` arms exactly
one delayed check and stores the snapshot; `message.read` re-stores the
snapshot and arms nothing. -/
theorem C7_state_machine_witness :
    eventProcessor c7Hook { etype := "message.sent", message := some c7Msg }
      = { ops := [StoreOp.set (redisKey c7Hook.name "m7") c7Msg none],
          delayedJobs := [{ name := "R:receipts delayed-job",
                            title := "Process undelivered message",
                            messageId := "m7", delay := MsResult.millis 1000,
                            attempts := 10, backoffDelay := 1000 }],
          doneCalls := 1, ackedWithError := false, raised := false }
    ∧ eventProcessor c7Hook { etype := "message.read", message := some c7Msg }
      = { ops := [StoreOp.set (redisKey c7Hook.name "m7") c7Msg none],
          delayedJobs := [], doneCalls := 1,
          ackedWithError := false, raised := false } := by
  refine ⟨?_, ?_⟩
  · exact (C7_state_machine c7Hook c7Msg "message.sent" (by decide)).2.1 rfl
  · exact (C7_state_machine c7Hook c7Msg "message.read" (by decide)).2.2.1
      (Or.inr rfl)

/-- C8: with builtin identity enrichment and a nonempty watched-recipient
set, exactly one notification job is emitted, carrying an identity map
with one entry for every id in `[senderId] ++ recipients` — emission
happens only once every id has reported — and a failed directory lookup
is captured as a null entry for that id without aborting the others. -/
theorem C8_enrichment_isolation (hook : ReceiptsHook)
    (directory : String → Except String Identity) (m : Message)
    (hmode : hook.identities = IdentityMode.builtin)
    (hrec : recipientsOf hook.reportForStatus m ≠ []) :
    processMessage hook directory m
      = [createJob hook m (recipientsOf hook.reportForStatus m)
          (resolveAll (liftGet (getUserFromIdentities directory))
            (m.sender.user_id
              :: (recipientsOf hook.reportForStatus m).map some))]
    ∧ (∀ u, u ∈ m.sender.user_id
            :: (recipientsOf hook.reportForStatus m).map some →
        (u, liftGet (getUserFromIdentities directory) u)
          ∈ resolveAll (liftGet (getUserFromIdentities directory))
              (m.sender.user_id
                :: (recipientsOf hook.reportForStatus m).map some))
    ∧ (∀ uid e, directory uid = Except.error e →
        liftGet (getUserFromIdentities directory) (some uid) = none)
    ∧ (∀ uid r, directory uid = Except.ok r →
        liftGet (getUserFromIdentities directory) (some uid) = some r) := by
  refine ⟨?_, ?_, ?_, ?_⟩
  · unfold processMessage
    rw [if_neg hrec, hmode]
  · intro u hu
    exact List.mem_map.mpr ⟨u, hu, rfl⟩
  · intro uid e he
    simp [liftGet, getUserFromIdentities, he]
  · intro uid r hr
    simp [liftGet, getUserFromIdentities, hr]

/-- C8, witness: the spec's example — sender `s` and recipient `A`
resolve, recipient `B` fails — yields one emitted job whose identity map
is `{s: record, A: record, B: null}`. -/
theorem C8_enrichment_isolation_witness :
    processMessage c8Hook c8Dir c8Msg
      = [{ name := "N", message := c8Msg, recipients := ["A", "B"],
           identities := [(some "s", some { body := "s-record" }),
                          (some "A", some { body := "A-record" }),
                          (some "B", none)],
           attempts := 10, backoffDelay := 1000 }] :=
  (C8_enrichment_isolation c8Hook c8Dir c8Msg rfl (by decide)).1

/-- Case analysis on the store operations issued by the second-variant
event processor: the operation list is one snapshot write at the hook-
and message-keyed slot, one delete of that slot, or empty. -/
theorem eventProcessor_ops_cases (hook : ReceiptsHook) (etype : String)
    (m : Message) :
    (eventProcessor hook { etype := etype, message := some m }).ops
      = [StoreOp.set (redisKey hook.name m.id) m none]
    ∨ (eventProcessor hook { etype := etype, message := some m }).ops
      = [StoreOp.del (redisKey hook.name m.id)]
    ∨ (eventProcessor hook { etype := etype, message := some m }).ops
      = [] := by
  simp only [eventProcessor]
  by_cases h0 : truthy m.sender.name = true
  · rw [if_pos h0]
    right; right; rfl
  · rw [if_neg h0]
    by_cases h1 : etype = "message.sent"
    · rw [if_pos h1]
      left; rfl
    · rw [if_neg h1]
      by_cases h2 : etype = "message.delivered" ∨ etype = "message.read"
      · rw [if_pos h2]
        left; rfl
      · rw [if_neg h2]
        by_cases h3 : etype = "message.deleted"
        · rw [if_pos h3]
          right; left; rfl
        · rw [if_neg h3]
          right; right; rfl

/-- C9, amended: in the identity-enriched variant, every store write of
the event processor uses the key
`'layer-webhooks-' ++ hookName ++ '-' ++ messageId` with the snapshot as
value and no expiry, every delete uses that same key, and the fire-time
evaluator changes the store at exactly that key; the first variant
instead keys its operations by `'layer-webhooks-' ++ messageId`, with no
hook-name component. -/
theorem C9_key_layout_amended (hook : ReceiptsHook) (ev : ReceiptsEvent)
    (m : Message) (hm : ev.message = some m) :
    (∀ k v e, StoreOp.set k v e ∈ (eventProcessor hook ev).ops →
        k = "layer-webhooks-" ++ hook.name ++ "-" ++ m.id
          ∧ v = m ∧ e = none)
    ∧ (∀ k, StoreOp.del k ∈ (eventProcessor hook ev).ops →
        k = "layer-webhooks-" ++ hook.name ++ "-" ++ m.id)
    ∧ (∀ (directory : String → Except String Identity) (store : Store)
          (messageId x : String),
        (delayedJobProcessor hook directory store messageId).store x
          = if x = "layer-webhooks-" ++ hook.name ++ "-" ++ messageId
            then none else store x) := by
  obtain ⟨etype, msg⟩ := ev
  have hm2 : msg = some m := hm
  subst hm2
  refine ⟨?_, ?_, ?_⟩
  · intro k v e hmem
    rcases eventProcessor_ops_cases hook etype m with hops | hops | hops
      <;> rw [hops] at hmem <;> simp [redisKey] at hmem
    exact ⟨hmem.1, hmem.2.1, hmem.2.2⟩
  · intro k hmem
    rcases eventProcessor_ops_cases hook etype m with hops | hops | hops
      <;> rw [hops] at hmem <;> simp [redisKey] at hmem
    exact hmem
  · intro directory store messageId x
    unfold delayedJobProcessor
    cases hst : store (redisKey hook.name messageId) with
    | some m2 =>
      show storeDel store (redisKey hook.name messageId) x = _
      unfold storeDel
      rfl
    | none =>
      show store x = _
      by_cases hx : x = "layer-webhooks-" ++ hook.name ++ "-" ++ messageId
      · rw [if_pos hx, hx]
        exact hst
      · rw [if_neg hx]

/-- C9, counterexample: the first receipts variant stores the snapshot of
a `message.sent` event under `'layer-webhooks-' ++ messageId`, which is
not the claimed `'layer-webhooks-' ++ hookName ++ '-' ++ messageId`. -/
theorem C9_key_layout_counterexample :
    (eventProcessorV1 "Read Monitor:receipts" (MsResult.millis 600000)
        { etype := "message.sent", message := some c9Msg }).ops
      = [StoreOp.set ("layer-webhooks-" ++ "m9") c9Msg none]
    ∧ "layer-webhooks-" ++ "m9"
        ≠ "layer-webhooks-" ++ "Read Monitor:receipts" ++ "-" ++ "m9" := by
  constructor
  · decide
  · decide

/-- C9, witness: after a `message.sent` write, the fire-time evaluator
deletes exactly the `'layer-webhooks-' ++ hookName ++ '-' ++ messageId`
slot. -/
theorem C9_key_layout_amended_witness :
    (delayedJobProcessor c9Hook c9Dir c9Store "m9").store
      ("layer-webhooks-" ++ c9Hook.name ++ "-" ++ "m9") = none := by
  have h := (C9_key_layout_amended c9Hook c9Ev c9Msg rfl).2.2 c9Dir c9Store
    "m9" ("layer-webhooks-" ++ c9Hook.name ++ "-" ++ "m9")
  rw [h, if_pos rfl]

/-- Every run of the second-variant event processor calls `done` at least
once and never passes it an error, so the job completes and the enqueued
10-attempt retry policy never engages. -/
theorem eventProcessor_ack (hook : ReceiptsHook) (ev : ReceiptsEvent) :
    1 ≤ (eventProcessor hook ev).doneCalls
    ∧ (eventProcessor hook ev).ackedWithError = false := by
  obtain ⟨etype, msg⟩ := ev
  cases msg with
  | none => exact ⟨le_refl 1, rfl⟩
  | some m =>
    simp only [eventProcessor]
    by_cases h0 : truthy m.sender.name = true
    · rw [if_pos h0]
      exact ⟨by norm_num, rfl⟩
    · rw [if_neg h0]
      by_cases h1 : etype = "message.sent"
      · rw [if_pos h1]
        exact ⟨le_refl 1, rfl⟩
      · rw [if_neg h1]
        by_cases h2 : etype = "message.delivered" ∨ etype = "message.read"
        · rw [if_pos h2]
          exact ⟨le_refl 1, rfl⟩
        · rw [if_neg h2]
          by_cases h3 : etype = "message.deleted"
          · rw [if_pos h3]
            exact ⟨le_refl 1, rfl⟩
          · rw [if_neg h3]
            exact ⟨le_refl 1, rfl⟩

/-- C10: the receipts event processor acknowledges every job via the
`finally` block: an event with no message makes the handler raise, yet
`done` is still called once, with no error — the job is acknowledged as
successful and the 10-attempt retry policy (with which the listener
enqueues every job) never engages; for a bot-sender message the early
`return done()` plus the `finally` block invoke `done` twice. -/
theorem C10_done_on_failure (hook : ReceiptsHook) :
    (∀ etype, eventProcessor hook { etype := etype, message := none }
        = { ops := [], delayedJobs := [], doneCalls := 1,
            ackedWithError := false, raised := true })
    ∧ (∀ ev, 1 ≤ (eventProcessor hook ev).doneCalls
        ∧ (eventProcessor hook ev).ackedWithError = false)
    ∧ (∀ etype m, truthy m.sender.name = true →
        (eventProcessor hook { etype := etype, message := some m }).doneCalls
          = 2)
    ∧ (∀ (name : String) (delay : Nat) (body : WebhookBody)
          (j : ListenerJob), j ∈ (postHandler name delay body).2 →
        j.attempts = 10) := by
  refine ⟨?_, ?_, ?_, ?_⟩
  · intro etype
    rfl
  · intro ev
    exact eventProcessor_ack hook ev
  · intro etype m hname
    simp [eventProcessor, hname]
  · intro name delay body j hj
    unfold postHandler at hj
    by_cases h : body.configName = name
        ∨ strStartsWith name (body.configName ++ ":") = true
    · rw [if_pos h] at hj
      by_cases h2 : body.message.isNone = true
          ∨ truthy (senderUserId body.message) = true
      · rw [if_pos h2] at hj
        rcases List.mem_singleton.mp hj with rfl
        rfl
      · rw [if_neg h2] at hj
        simp at hj
    · rw [if_neg h] at hj
      simp at hj

/-- C10, counterexample: the exception is not swallowed by the
try/finally — handling an event with no message raises out of the handler
(after the finally block has already acknowledged the job with a plain
`done()`). -/
theorem C10_not_swallowed_counterexample :
    (eventProcessor c10Hook
        { etype := "conversation.created", message := none }).raised = true
    ∧ (eventProcessor c10Hook
        { etype := "conversation.created", message := none }).doneCalls = 1
    ∧ (eventProcessor c10Hook
        { etype := "conversation.created", message := none }).ackedWithError
      = false := by
  exact ⟨rfl, rfl, rfl⟩

/-- C10, witness: with a concrete hook, the message-less event raises but
is acknowledged once with no error, and a bot-sender message is
acknowledged twice. -/
theorem C10_done_on_failure_witness :
    eventProcessor c10Hook { etype := "message.sent", message := none }
      = { ops := [], delayedJobs := [], doneCalls := 1,
          ackedWithError := false, raised := true }
    ∧ (eventProcessor c10Hook
        { etype := "message.sent", message := some c10Bot }).doneCalls = 2 :=
  ⟨(C10_done_on_failure c10Hook).1 "message.sent",
   (C10_done_on_failure c10Hook).2.2.1 "message.sent" c10Bot (by decide)⟩

end LW
